import Mathlib

/-!
Verification of the ShoobBotTS command-definition reconciliation engine.

The definitions below are a shallow embedding of the TypeScript sources:

* `src/commands/index.ts` — `getAllBotCommandsData` (cached desired-set
  loader) and `loadCommands` (global-scope reconciliation against the
  `Command` table and a single `rest.put` to the global registry route);
* `src/utils/guild_commands.ts` — `syncGuildCommands` and
  `registerCommandsToGuild` (per-guild reconciliation against the
  `GuildCommand` table and a single `rest.put` to the guild registry
  route), and `initializeGuildCommandSyncer` (fan-out over all cached
  guilds with synced / skipped / failed tallies).

Modelling conventions:

* The two SQL tables (`commands`, keyed by `name`, and `guild_commands`,
  keyed by `name, guildId`) are combined into one `Ledger`, a list of
  `ChecksumRecord` rows keyed by `(name, scope)`; `Scope.global` rows are
  the `Command` table and `Scope.guild g` rows the `GuildCommand` table.
* `calculateChecksum ∘ JSON.stringify` is a deterministic pure function of
  the command data, so it is passed in as a parameter
  `chk : CommandData → String`; the engine only ever compares its results
  for equality.
* Failure injection mirrors where the source can fail: `dbFindFails`
  makes the `findOne` / `findOrCreate` ledger lookup throw (the `catch`
  branches in the sources), `putSucceeds` decides the outcome of the
  `rest.put` registry call, `guildsFetchFails` makes
  `client.guilds.fetch()` throw, and `tokenPresent` / `clientIdPresent`
  model the missing-credential early returns.
* `Date.now()/1000` is the environment field `now`.
* The concurrent `Promise.allSettled` fan-out is embedded as a sequential
  fold; each guild's reconciliation reads and writes only rows of its own
  scope, so the serialization order is immaterial to the recorded state.
-/

namespace ShoobBot

/-- A registration scope: the single global scope or one guild. -/
inductive Scope where
  | global : Scope
  | guild : String → Scope
deriving DecidableEq, Repr, Inhabited

/-- A desired command definition as the engine sees it: its `name`, its
`description` (the empty string standing for a missing/empty JS
description), and the rest of its serialized payload. -/
structure CommandData where
  name : String
  description : String
  payload : String
deriving DecidableEq, Repr

/-- One persisted ledger row (a `Command` or `GuildCommand` row):
(name, scope) is the key, `checksum` the last recorded content hash,
`lastUpdated` the unix timestamp written with it. -/
structure ChecksumRecord where
  name : String
  scope : Scope
  description : Option String
  checksum : String
  lastUpdated : Nat
deriving DecidableEq, Repr

/-- The persisted ledger: all rows of both tables. -/
abbrev Ledger := List ChecksumRecord

/-- `findOne({where:{name}})` / the lookup half of `findOrCreate`:
first row matching the (name, scope) key. -/
def findRecord (l : Ledger) (n : String) (s : Scope) : Option ChecksumRecord :=
  l.find? (fun r => r.name == n && r.scope == s)

/-- `instance.update(...)`: replace the first row matching the key of
`rec` by `rec` (name and scope are the key, so this is the source's
field-wise update of the found row). -/
def updateFirst : Ledger → ChecksumRecord → Ledger
  | [], _ => []
  | r :: rest, rec =>
    if r.name == rec.name && r.scope == rec.scope then rec :: rest
    else r :: updateFirst rest rec

/-- Update the existing row for the key of `rec`, or create it
(`Command.create` / the create half of `findOrCreate`). -/
def upsertRecord (l : Ledger) (rec : ChecksumRecord) : Ledger :=
  if (findRecord l rec.name rec.scope).isSome then updateFirst l rec
  else l ++ [rec]

/-- JS `description || null` (and the equivalent
`description === '' ? null : description || null`): an empty string is
stored as SQL NULL. -/
def descOrNull (c : CommandData) : Option String :=
  if c.description = "" then none else some c.description

/-- The process environment and failure injection for one pass. -/
structure Env where
  forceRefresh : Bool
  tokenPresent : Bool
  clientIdPresent : Bool
  guildsFetchFails : Bool
  dbFindFails : String → Scope → Bool
  putSucceeds : Scope → Bool
  now : Nat

/-- One `rest.put` call to the remote registry: the scope route it
targets and the body it carries. -/
structure RemoteCall where
  scope : Scope
  body : List CommandData
deriving DecidableEq, Repr, Inhabited

/-! ## Per-guild reconciliation (`src/utils/guild_commands.ts`) -/

/-- Line 216 of `guild_commands.ts`:
`created || dbGuildCommand.checksum !== currentChecksum`. -/
def guildShouldUpdate (created : Bool) (recChecksum currentChecksum : String) : Bool :=
  created || recChecksum != currentChecksum

/-- State threaded through the per-command loop of `syncGuildCommands` /
`registerCommandsToGuild`: the ledger so far, the
`commandsToRegisterViaAPI` list, and the `shouldPerformAPIPut` flag. -/
structure SyncLoopState where
  ledger : Ledger
  api : List CommandData
  needPut : Bool
deriving DecidableEq, Repr

/-- One iteration of the per-command loop shared (verbatim up to the
equivalent description normalisation) by `syncGuildCommands` and
`registerCommandsToGuild`: `findOrCreate` on (name, guildId), update on a
checksum mismatch, `catch` on a lookup failure setting the put flag; the
command is appended to the API payload on every path. -/
def syncGuildStep (env : Env) (chk : CommandData → String) (g : String)
    (st : SyncLoopState) (c : CommandData) : SyncLoopState :=
  let cs := chk c
  if env.dbFindFails c.name (Scope.guild g) then
    { st with needPut := true, api := st.api ++ [c] }
  else
    match findRecord st.ledger c.name (Scope.guild g) with
    | none =>
        let row : ChecksumRecord := ⟨c.name, Scope.guild g, descOrNull c, cs, env.now⟩
        { ledger := st.ledger ++ [row], api := st.api ++ [c], needPut := true }
    | some r =>
        if guildShouldUpdate false r.checksum cs then
          let row : ChecksumRecord := ⟨c.name, Scope.guild g, descOrNull c, cs, env.now⟩
          { ledger := upsertRecord st.ledger row, api := st.api ++ [c], needPut := true }
        else
          { st with api := st.api ++ [c] }

/-- Result of `syncGuildCommands`: the ledger, the registry calls made,
and the boolean return value (`true` exactly when the put succeeded). -/
structure SyncResult where
  ledger : Ledger
  calls : List RemoteCall
  synced : Bool
deriving DecidableEq, Repr

/-- `syncGuildCommands` (guild_commands.ts lines 182–276): run the
per-command loop, then — when the put flag is set OR the payload list is
nonempty — issue one whole-scope `rest.put`; return `true` on success and
`false` on a caught put error, a missing token, or a missing client id. -/
def syncGuildCommands (env : Env) (chk : CommandData → String) (g : String)
    (allBotCommandsData : List CommandData) (ledger : Ledger) : SyncResult :=
  if !env.tokenPresent then ⟨ledger, [], false⟩
  else
    let st := allBotCommandsData.foldl (syncGuildStep env chk g) ⟨ledger, [], false⟩
    if st.needPut || !st.api.isEmpty then
      if !env.clientIdPresent then ⟨st.ledger, [], false⟩
      else if env.putSucceeds (Scope.guild g) then ⟨st.ledger, [⟨Scope.guild g, st.api⟩], true⟩
      else ⟨st.ledger, [⟨Scope.guild g, st.api⟩], false⟩
    else ⟨st.ledger, [], false⟩

/-- `registerCommandsToGuild` (guild_commands.ts lines 81–170): the same
loop and put condition as `syncGuildCommands`, with no boolean result. -/
def registerCommandsToGuild (env : Env) (chk : CommandData → String) (g : String)
    (allBotCommandsData : List CommandData) (ledger : Ledger) : Ledger × List RemoteCall :=
  if !env.tokenPresent then (ledger, [])
  else
    let st := allBotCommandsData.foldl (syncGuildStep env chk g) ⟨ledger, [], false⟩
    if st.needPut || !st.api.isEmpty then
      if !env.clientIdPresent then (st.ledger, [])
      else (st.ledger, [⟨Scope.guild g, st.api⟩])
    else (st.ledger, [])

/-- Result of the fan-out `initializeGuildCommandSyncer`: final ledger,
all registry calls, and the synced / skipped / failed tallies. -/
structure InitSyncResult where
  ledger : Ledger
  calls : List RemoteCall
  syncedCount : Nat
  skippedCount : Nat
  failedCount : Nat
deriving DecidableEq, Repr

/-- `initializeGuildCommandSyncer` (guild_commands.ts lines 17–70): early
return on a missing token, missing client id, empty command list, or a
failed guild fetch; otherwise run `syncGuildCommands` for every cached
guild, tallying `synced` for a `true` return and `skipped` for `false`.
The `catch`/`failedCount` branch only fires when `syncGuildCommands`
itself throws, which the function (all its fallible awaits being wrapped
in its own try/catch blocks) never does. -/
def initializeGuildCommandSyncer (env : Env) (chk : CommandData → String)
    (guilds : List String) (allBotCommandsData : List CommandData)
    (ledger : Ledger) : InitSyncResult :=
  if !env.tokenPresent then ⟨ledger, [], 0, 0, 0⟩
  else if !env.clientIdPresent then ⟨ledger, [], 0, 0, 0⟩
  else if allBotCommandsData.isEmpty then ⟨ledger, [], 0, 0, 0⟩
  else if env.guildsFetchFails then ⟨ledger, [], 0, 0, 0⟩
  else
    guilds.foldl (fun acc g =>
      let r := syncGuildCommands env chk g allBotCommandsData acc.ledger
      if r.synced then
        ⟨r.ledger, acc.calls ++ r.calls, acc.syncedCount + 1, acc.skippedCount, acc.failedCount⟩
      else
        ⟨r.ledger, acc.calls ++ r.calls, acc.syncedCount, acc.skippedCount + 1, acc.failedCount⟩)
      ⟨ledger, [], 0, 0, 0⟩

/-! ## Global-scope reconciliation (`src/commands/index.ts`) -/

/-- Lines 137–141 of `commands/index.ts`:
`!dbCommand || dbCommand.checksum !== currentChecksum || forceRefresh`. -/
def globalNeedsPush (dbRecord : Option ChecksumRecord) (currentChecksum : String)
    (forceRefresh : Bool) : Bool :=
  match dbRecord with
  | none => true
  | some r => r.checksum != currentChecksum || forceRefresh

/-- State threaded through the per-command loop of `loadCommands`. -/
structure GlobalLoopState where
  ledger : Ledger
  needPut : Bool
deriving DecidableEq, Repr

/-- One iteration of the `loadCommands` loop (lines 122–167): a missing
cached checksum flags the put and skips the row; a ledger lookup failure
is caught and flags the put; otherwise the detector decides and, when it
fires, the global row is updated or created before any registry call. -/
def loadCommandsStep (env : Env) (checksums : String → Option String)
    (st : GlobalLoopState) (c : CommandData) : GlobalLoopState :=
  match checksums c.name with
  | none => { st with needPut := true }
  | some cs =>
    if env.dbFindFails c.name Scope.global then
      { st with needPut := true }
    else
      if globalNeedsPush (findRecord st.ledger c.name Scope.global) cs env.forceRefresh then
        let row : ChecksumRecord := ⟨c.name, Scope.global, descOrNull c, cs, env.now⟩
        ⟨upsertRecord st.ledger row, true⟩
      else st

/-- Result of `loadCommands`: the global ledger and the registry calls
made (the source catches a failed put, so the rest of its state does not
depend on the put's outcome). -/
structure GlobalResult where
  ledger : Ledger
  calls : List RemoteCall
deriving DecidableEq, Repr

/-- `loadCommands` (commands/index.ts lines 108–188), reconciliation
core: run the loop over every desired command, then — only when some
command was flagged — issue one `rest.put` carrying the full desired set
(skipped when the token or client id is missing). -/
def loadCommands (env : Env) (checksums : String → Option String)
    (allCommands : List CommandData) (ledger : Ledger) : GlobalResult :=
  let st := allCommands.foldl (loadCommandsStep env checksums) ⟨ledger, false⟩
  if st.needPut then
    if !env.tokenPresent || !env.clientIdPresent then ⟨st.ledger, []⟩
    else ⟨st.ledger, [⟨Scope.global, allCommands⟩]⟩
  else ⟨st.ledger, []⟩

/-! ## Desired-set loader (`src/commands/index.ts` lines 48–97) -/

/-- The module-level caches `_allBotCommandsData` and `_commandChecksums`
(`none` = JS `null`). -/
structure LoaderCache where
  allData : Option (List CommandData)
  checksums : Option (List (String × String))
deriving DecidableEq, Repr

/-- `getAllBotCommandsData`: return the cached list when both caches are
set (a non-null array or map is truthy even when empty); otherwise run
discovery (`discovered` is the list of valid command modules found, in
directory order), fill both caches, and return the fresh list. -/
def getAllBotCommandsData (chk : CommandData → String)
    (discovered : List CommandData) (st : LoaderCache) :
    List CommandData × LoaderCache :=
  match st.allData, st.checksums with
  | some d, some m => (d, ⟨some d, some m⟩)
  | some _, none =>
      (discovered, ⟨some discovered, some (discovered.map (fun c => (c.name, chk c)))⟩)
  | none, _ =>
      (discovered, ⟨some discovered, some (discovered.map (fun c => (c.name, chk c)))⟩)

/-- Lookup in the cached checksum map (`_commandChecksums.get(name)`). -/
def lookupChecksum (m : List (String × String)) (n : String) : Option String :=
  (m.find? (fun p => p.1 == n)).map Prod.snd

/-! ## Concrete fixtures used by witnesses and counterexamples -/

/-- A concrete deterministic checksum function for witnesses: the hash of
a command is its serialized payload. -/
def chk0 : CommandData → String := fun c => c.payload

/-- A one-command desired set. -/
def cmdPing : CommandData := ⟨"ping", "", "P1"⟩

/-- An environment in which every collaborator succeeds. -/
def envOK : Env := ⟨false, true, true, false, fun _ _ => false, fun _ => true, 100⟩

/-- `envOK` with every registry put failing. -/
def envPutFails : Env := ⟨false, true, true, false, fun _ _ => false, fun _ => false, 100⟩

/-- A ledger already recording `cmdPing` for guild `g1` (older
timestamp). -/
def ledgerPingG1 : Ledger := [⟨"ping", Scope.guild "g1", none, "P1", 50⟩]

/-- An environment in which the registry put fails for guild `g1` and
succeeds everywhere else. -/
def env3 : Env :=
  ⟨false, true, true, false, fun _ _ => false, fun s => !(s == Scope.guild "g1"), 100⟩

/-- `envOK` with the forced-refresh flag set. -/
def envForce : Env := ⟨true, true, true, false, fun _ _ => false, fun _ => true, 100⟩

/-- `envOK` with the ledger lookup for `ping` in guild `g1` failing. -/
def envDbFail : Env :=
  ⟨false, true, true, false, fun m s => m == "ping" && s == Scope.guild "g1", fun _ => true, 100⟩

end ShoobBot

namespace ShoobBot

/-! ## Ledger lookup and upsert lemmas -/

lemma findRecord_cons (r : ChecksumRecord) (l : Ledger) (n : String) (s : Scope) :
    findRecord (r :: l) n s =
      if r.name == n && r.scope == s then some r else findRecord l n s := by
  unfold findRecord
  rw [List.find?_cons]
  cases h : (r.name == n && r.scope == s) <;> simp [h]

lemma findRecord_append (l₁ l₂ : Ledger) (n : String) (s : Scope) :
    findRecord (l₁ ++ l₂) n s = (findRecord l₁ n s).or (findRecord l₂ n s) := by
  unfold findRecord
  exact List.find?_append

lemma key_beq_scope_ne {t u : Scope} (a b : String) (h : t ≠ u) :
    (a == b && t == u) = false := by
  simp [beq_eq_false_iff_ne, h]

lemma findRecord_updateFirst_other {l : Ledger} {rec : ChecksumRecord} {n : String} {s : Scope}
    (hb : (rec.name == n && rec.scope == s) = false) :
    findRecord (updateFirst l rec) n s = findRecord l n s := by
  induction l with
  | nil => rfl
  | cons r rest ih =>
    unfold updateFirst
    by_cases hm : (r.name == rec.name && r.scope == rec.scope) = true
    · rw [if_pos hm, findRecord_cons, findRecord_cons]
      rcases Bool.and_eq_true .. |>.mp hm with ⟨h1, h2⟩
      rw [beq_iff_eq] at h1 h2
      have hr : (r.name == n && r.scope == s) = false := by rw [h1, h2]; exact hb
      rw [hb, hr]
      simp
    · rw [if_neg hm, findRecord_cons, findRecord_cons]
      by_cases hr : (r.name == n && r.scope == s) = true
      · rw [hr]
        simp
      · simp only [Bool.not_eq_true] at hr
        rw [hr]
        simp only [Bool.false_eq_true, if_false]
        exact ih

lemma findRecord_updateFirst_isSome {l : Ledger} (rec : ChecksumRecord) {n : String} {s : Scope}
    (h : (findRecord l n s).isSome = true) :
    (findRecord (updateFirst l rec) n s).isSome = true := by
  induction l with
  | nil => simp [findRecord] at h
  | cons r rest ih =>
    rw [findRecord_cons] at h
    unfold updateFirst
    by_cases hm : (r.name == rec.name && r.scope == rec.scope) = true
    · rw [if_pos hm, findRecord_cons]
      rcases Bool.and_eq_true .. |>.mp hm with ⟨h1, h2⟩
      rw [beq_iff_eq] at h1 h2
      by_cases hr : (r.name == n && r.scope == s) = true
      · have hq : (rec.name == n && rec.scope == s) = true := by
          rw [← h1, ← h2]; exact hr
        rw [hq]; simp
      · simp only [Bool.not_eq_true] at hr
        rw [hr] at h
        by_cases hq : (rec.name == n && rec.scope == s) = true
        · rw [hq]; simp
        · simp only [Bool.not_eq_true] at hq
          rw [hq]; simpa using h
    · rw [if_neg hm, findRecord_cons]
      by_cases hr : (r.name == n && r.scope == s) = true
      · rw [hr]; simp
      · simp only [Bool.not_eq_true] at hr
        rw [hr] at h ⊢
        simp only [Bool.false_eq_true, if_false] at h ⊢
        exact ih h

lemma findRecord_upsert_other {l : Ledger} {rec : ChecksumRecord} {n : String} {s : Scope}
    (h : rec.scope ≠ s) :
    findRecord (upsertRecord l rec) n s = findRecord l n s := by
  have hb := key_beq_scope_ne rec.name n h
  unfold upsertRecord
  by_cases hf : (findRecord l rec.name rec.scope).isSome = true
  · rw [if_pos hf]
    exact findRecord_updateFirst_other hb
  · rw [if_neg hf, findRecord_append]
    have : findRecord [rec] n s = none := by
      simp [findRecord, List.find?, hb]
    rw [this]
    simp

lemma findRecord_upsert_isSome {l : Ledger} (rec : ChecksumRecord) {n : String} {s : Scope}
    (h : (findRecord l n s).isSome = true) :
    (findRecord (upsertRecord l rec) n s).isSome = true := by
  unfold upsertRecord
  by_cases hf : (findRecord l rec.name rec.scope).isSome = true
  · rw [if_pos hf]
    exact findRecord_updateFirst_isSome rec h
  · rw [if_neg hf, findRecord_append, Option.isSome_or, h]
    simp

/-! ## Guild-loop lemmas -/

lemma syncGuildStep_api (env : Env) (chk : CommandData → String) (g : String)
    (st : SyncLoopState) (c : CommandData) :
    (syncGuildStep env chk g st c).api = st.api ++ [c] := by
  unfold syncGuildStep
  by_cases hdb : env.dbFindFails c.name (Scope.guild g) = true
  · simp [hdb]
  · simp only [Bool.not_eq_true] at hdb
    simp only [hdb]
    cases hf : findRecord st.ledger c.name (Scope.guild g) with
    | none => simp
    | some r =>
      by_cases hu : guildShouldUpdate false r.checksum (chk c) = true <;> simp [hu]

lemma syncLoop_api (env : Env) (chk : CommandData → String) (g : String) :
    ∀ (cmds : List CommandData) (st : SyncLoopState),
      (List.foldl (syncGuildStep env chk g) st cmds).api = st.api ++ cmds := by
  intro cmds
  induction cmds with
  | nil => intro st; simp
  | cons c cs ih =>
    intro st
    rw [List.foldl_cons, ih, syncGuildStep_api]
    simp

lemma syncGuildStep_ledger_frame (env : Env) (chk : CommandData → String) (g : String)
    (st : SyncLoopState) (c : CommandData) {n : String} {s : Scope}
    (h : s ≠ Scope.guild g) :
    findRecord (syncGuildStep env chk g st c).ledger n s = findRecord st.ledger n s := by
  have hne : Scope.guild g ≠ s := fun he => h he.symm
  unfold syncGuildStep
  by_cases hdb : env.dbFindFails c.name (Scope.guild g) = true
  · simp [hdb]
  · simp only [Bool.not_eq_true] at hdb
    simp only [hdb]
    cases hf : findRecord st.ledger c.name (Scope.guild g) with
    | none =>
      simp only [Bool.false_eq_true, if_false]
      rw [findRecord_append]
      have hb : (c.name == n && Scope.guild g == s) = false := key_beq_scope_ne c.name n hne
      have : findRecord [(⟨c.name, Scope.guild g, descOrNull c, chk c, env.now⟩ : ChecksumRecord)] n s = none := by
        simp [findRecord, List.find?, hb]
      rw [this]
      simp
    | some r =>
      by_cases hu : guildShouldUpdate false r.checksum (chk c) = true
      · simp only [hu, if_true]
        exact findRecord_upsert_other hne
      · simp only [Bool.not_eq_true] at hu
        simp [hu]

lemma syncGuildStep_ledger_isSome (env : Env) (chk : CommandData → String) (g : String)
    (st : SyncLoopState) (c : CommandData) {n : String} {s : Scope}
    (h : (findRecord st.ledger n s).isSome = true) :
    (findRecord (syncGuildStep env chk g st c).ledger n s).isSome = true := by
  unfold syncGuildStep
  by_cases hdb : env.dbFindFails c.name (Scope.guild g) = true
  · simp [hdb, h]
  · simp only [Bool.not_eq_true] at hdb
    simp only [hdb]
    cases hf : findRecord st.ledger c.name (Scope.guild g) with
    | none =>
      simp only [Bool.false_eq_true, if_false]
      rw [findRecord_append, Option.isSome_or, h]
      simp
    | some r =>
      by_cases hu : guildShouldUpdate false r.checksum (chk c) = true
      · simp only [hu, if_true]
        exact findRecord_upsert_isSome _ h
      · simp only [Bool.not_eq_true] at hu
        simp [hu, h]

lemma syncLoop_ledger_frame (env : Env) (chk : CommandData → String) (g : String)
    {n : String} {s : Scope} (h : s ≠ Scope.guild g) :
    ∀ (cmds : List CommandData) (st : SyncLoopState),
      findRecord (List.foldl (syncGuildStep env chk g) st cmds).ledger n s =
        findRecord st.ledger n s := by
  intro cmds
  induction cmds with
  | nil => intro st; rfl
  | cons c cs ih =>
    intro st
    rw [List.foldl_cons, ih, syncGuildStep_ledger_frame env chk g st c h]

lemma syncLoop_ledger_isSome (env : Env) (chk : CommandData → String) (g : String)
    {n : String} {s : Scope} :
    ∀ (cmds : List CommandData) (st : SyncLoopState),
      (findRecord st.ledger n s).isSome = true →
      (findRecord (List.foldl (syncGuildStep env chk g) st cmds).ledger n s).isSome = true := by
  intro cmds
  induction cmds with
  | nil => intro st h; exact h
  | cons c cs ih =>
    intro st h
    rw [List.foldl_cons]
    exact ih _ (syncGuildStep_ledger_isSome env chk g st c h)

lemma syncGuildStep_needPut_mono (env : Env) (chk : CommandData → String) (g : String)
    (st : SyncLoopState) (c : CommandData) (h : st.needPut = true) :
    (syncGuildStep env chk g st c).needPut = true := by
  unfold syncGuildStep
  by_cases hdb : env.dbFindFails c.name (Scope.guild g) = true
  · simp [hdb]
  · simp only [Bool.not_eq_true] at hdb
    simp only [hdb]
    cases hf : findRecord st.ledger c.name (Scope.guild g) with
    | none => simp
    | some r =>
      by_cases hu : guildShouldUpdate false r.checksum (chk c) = true <;> simp [hu, h]

lemma syncGuildStep_needPut_of_dbFail (env : Env) (chk : CommandData → String) (g : String)
    (st : SyncLoopState) (c : CommandData)
    (h : env.dbFindFails c.name (Scope.guild g) = true) :
    (syncGuildStep env chk g st c).needPut = true := by
  unfold syncGuildStep
  simp [h]

lemma syncLoop_needPut_mono (env : Env) (chk : CommandData → String) (g : String) :
    ∀ (cmds : List CommandData) (st : SyncLoopState), st.needPut = true →
      (List.foldl (syncGuildStep env chk g) st cmds).needPut = true := by
  intro cmds
  induction cmds with
  | nil => intro st h; exact h
  | cons c cs ih =>
    intro st h
    rw [List.foldl_cons]
    exact ih _ (syncGuildStep_needPut_mono env chk g st c h)

lemma syncLoop_needPut_of_mem (env : Env) (chk : CommandData → String) (g : String)
    {cmds : List CommandData} {c : CommandData} (hc : c ∈ cmds)
    (h : env.dbFindFails c.name (Scope.guild g) = true) (st : SyncLoopState) :
    (List.foldl (syncGuildStep env chk g) st cmds).needPut = true := by
  obtain ⟨pre, post, rfl⟩ := List.append_of_mem hc
  rw [List.foldl_append, List.foldl_cons]
  exact syncLoop_needPut_mono env chk g post _
    (syncGuildStep_needPut_of_dbFail env chk g _ c h)

end ShoobBot

namespace ShoobBot

/-! ## Global-loop lemmas -/

lemma loadCommandsStep_ledger_frame (env : Env) (checksums : String → Option String)
    (st : GlobalLoopState) (c : CommandData) {n : String} {s : Scope}
    (h : s ≠ Scope.global) :
    findRecord (loadCommandsStep env checksums st c).ledger n s = findRecord st.ledger n s := by
  have hne : Scope.global ≠ s := fun he => h he.symm
  unfold loadCommandsStep
  cases hcs : checksums c.name with
  | none => rfl
  | some cs =>
    by_cases hdb : env.dbFindFails c.name Scope.global = true
    · simp [hdb]
    · simp only [Bool.not_eq_true] at hdb
      simp only [hdb, Bool.false_eq_true, if_false]
      by_cases hp : globalNeedsPush (findRecord st.ledger c.name Scope.global) cs env.forceRefresh = true
      · simp only [hp, if_true]
        exact findRecord_upsert_other hne
      · simp only [Bool.not_eq_true] at hp
        simp [hp]

lemma loadCommandsStep_ledger_isSome (env : Env) (checksums : String → Option String)
    (st : GlobalLoopState) (c : CommandData) {n : String} {s : Scope}
    (h : (findRecord st.ledger n s).isSome = true) :
    (findRecord (loadCommandsStep env checksums st c).ledger n s).isSome = true := by
  unfold loadCommandsStep
  cases hcs : checksums c.name with
  | none => exact h
  | some cs =>
    by_cases hdb : env.dbFindFails c.name Scope.global = true
    · simp [hdb, h]
    · simp only [Bool.not_eq_true] at hdb
      simp only [hdb, Bool.false_eq_true, if_false]
      by_cases hp : globalNeedsPush (findRecord st.ledger c.name Scope.global) cs env.forceRefresh = true
      · simp only [hp, if_true]
        exact findRecord_upsert_isSome _ h
      · simp only [Bool.not_eq_true] at hp
        simp [hp, h]

lemma globalLoop_ledger_frame (env : Env) (checksums : String → Option String)
    {n : String} {s : Scope} (h : s ≠ Scope.global) :
    ∀ (cmds : List CommandData) (st : GlobalLoopState),
      findRecord (List.foldl (loadCommandsStep env checksums) st cmds).ledger n s =
        findRecord st.ledger n s := by
  intro cmds
  induction cmds with
  | nil => intro st; rfl
  | cons c cs ih =>
    intro st
    rw [List.foldl_cons, ih, loadCommandsStep_ledger_frame env checksums st c h]

lemma globalLoop_ledger_isSome (env : Env) (checksums : String → Option String)
    {n : String} {s : Scope} :
    ∀ (cmds : List CommandData) (st : GlobalLoopState),
      (findRecord st.ledger n s).isSome = true →
      (findRecord (List.foldl (loadCommandsStep env checksums) st cmds).ledger n s).isSome = true := by
  intro cmds
  induction cmds with
  | nil => intro st h; exact h
  | cons c cs ih =>
    intro st h
    rw [List.foldl_cons]
    exact ih _ (loadCommandsStep_ledger_isSome env checksums st c h)

lemma loadCommandsStep_needPut_mono (env : Env) (checksums : String → Option String)
    (st : GlobalLoopState) (c : CommandData) (h : st.needPut = true) :
    (loadCommandsStep env checksums st c).needPut = true := by
  unfold loadCommandsStep
  cases hcs : checksums c.name with
  | none => simp
  | some cs =>
    by_cases hdb : env.dbFindFails c.name Scope.global = true
    · simp [hdb]
    · simp only [Bool.not_eq_true] at hdb
      simp only [hdb, Bool.false_eq_true, if_false]
      by_cases hp : globalNeedsPush (findRecord st.ledger c.name Scope.global) cs env.forceRefresh = true <;>
        simp [hp, h]

lemma loadCommandsStep_needPut_of_dbFail (env : Env) (checksums : String → Option String)
    (st : GlobalLoopState) (c : CommandData)
    (h : env.dbFindFails c.name Scope.global = true) :
    (loadCommandsStep env checksums st c).needPut = true := by
  unfold loadCommandsStep
  cases hcs : checksums c.name with
  | none => simp
  | some cs => simp [h]

lemma loadCommandsStep_needPut_of_force (env : Env) (checksums : String → Option String)
    (st : GlobalLoopState) (c : CommandData) (h : env.forceRefresh = true) :
    (loadCommandsStep env checksums st c).needPut = true := by
  unfold loadCommandsStep
  cases hcs : checksums c.name with
  | none => simp
  | some cs =>
    by_cases hdb : env.dbFindFails c.name Scope.global = true
    · simp [hdb]
    · simp only [Bool.not_eq_true] at hdb
      simp only [hdb, Bool.false_eq_true, if_false]
      have hp : globalNeedsPush (findRecord st.ledger c.name Scope.global) cs env.forceRefresh = true := by
        unfold globalNeedsPush
        cases findRecord st.ledger c.name Scope.global <;> simp [h]
      simp [hp]

lemma globalLoop_needPut_mono (env : Env) (checksums : String → Option String) :
    ∀ (cmds : List CommandData) (st : GlobalLoopState), st.needPut = true →
      (List.foldl (loadCommandsStep env checksums) st cmds).needPut = true := by
  intro cmds
  induction cmds with
  | nil => intro st h; exact h
  | cons c cs ih =>
    intro st h
    rw [List.foldl_cons]
    exact ih _ (loadCommandsStep_needPut_mono env checksums st c h)

lemma globalLoop_needPut_of_mem (env : Env) (checksums : String → Option String)
    {cmds : List CommandData} {c : CommandData} (hc : c ∈ cmds)
    (h : env.dbFindFails c.name Scope.global = true) (st : GlobalLoopState) :
    (List.foldl (loadCommandsStep env checksums) st cmds).needPut = true := by
  obtain ⟨pre, post, rfl⟩ := List.append_of_mem hc
  rw [List.foldl_append, List.foldl_cons]
  exact globalLoop_needPut_mono env checksums post _
    (loadCommandsStep_needPut_of_dbFail env checksums _ c h)

lemma globalLoop_needPut_of_force (env : Env) (checksums : String → Option String)
    {cmds : List CommandData} (hne : cmds ≠ []) (h : env.forceRefresh = true)
    (st : GlobalLoopState) :
    (List.foldl (loadCommandsStep env checksums) st cmds).needPut = true := by
  cases cmds with
  | nil => exact absurd rfl hne
  | cons c cs =>
    rw [List.foldl_cons]
    exact globalLoop_needPut_mono env checksums cs _
      (loadCommandsStep_needPut_of_force env checksums st c h)

/-! ## Top-level characterizations -/

lemma syncGuildCommands_ledger_cases (env : Env) (chk : CommandData → String) (g : String)
    (cmds : List CommandData) (ledger : Ledger) :
    (syncGuildCommands env chk g cmds ledger).ledger = ledger ∨
    (syncGuildCommands env chk g cmds ledger).ledger =
      (List.foldl (syncGuildStep env chk g) ⟨ledger, [], false⟩ cmds).ledger := by
  unfold syncGuildCommands
  cases htp : env.tokenPresent
  · left; simp [htp]
  · right
    simp only [htp, Bool.not_true, Bool.false_eq_true, if_false]
    split_ifs <;> rfl

lemma syncGuildCommands_ledger_eq (env : Env) (chk : CommandData → String) (g : String)
    (cmds : List CommandData) (ledger : Ledger) :
    (syncGuildCommands env chk g cmds ledger).ledger =
      if env.tokenPresent then
        (List.foldl (syncGuildStep env chk g) ⟨ledger, [], false⟩ cmds).ledger
      else ledger := by
  unfold syncGuildCommands
  cases htp : env.tokenPresent
  · simp [htp]
  · simp only [htp, Bool.not_true, Bool.false_eq_true, if_false, if_true]
    split_ifs <;> rfl

lemma syncGuildCommands_calls_cases (env : Env) (chk : CommandData → String) (g : String)
    (cmds : List CommandData) (ledger : Ledger) :
    (syncGuildCommands env chk g cmds ledger).calls = [] ∨
    (syncGuildCommands env chk g cmds ledger).calls = [⟨Scope.guild g, cmds⟩] := by
  unfold syncGuildCommands
  cases htp : env.tokenPresent
  · left; simp [htp]
  · simp only [htp, Bool.not_true, Bool.false_eq_true, if_false]
    have hapi : (List.foldl (syncGuildStep env chk g) ⟨ledger, [], false⟩ cmds).api = cmds := by
      rw [syncLoop_api]; simp
    split_ifs <;> simp [hapi]

lemma syncGuildCommands_synced (env : Env) (chk : CommandData → String) (g : String)
    (cmds : List CommandData) (ledger : Ledger)
    (htp : env.tokenPresent = true) (hcp : env.clientIdPresent = true) (hne : cmds ≠ []) :
    (syncGuildCommands env chk g cmds ledger).synced = env.putSucceeds (Scope.guild g) := by
  unfold syncGuildCommands
  have hapi : (List.foldl (syncGuildStep env chk g) ⟨ledger, [], false⟩ cmds).api = cmds := by
    rw [syncLoop_api]; simp
  have hcond : ((List.foldl (syncGuildStep env chk g) ⟨ledger, [], false⟩ cmds).needPut ||
      !(List.foldl (syncGuildStep env chk g) ⟨ledger, [], false⟩ cmds).api.isEmpty) = true := by
    rw [hapi]
    have : cmds.isEmpty = false := by
      cases cmds with
      | nil => exact absurd rfl hne
      | cons a l => rfl
    simp [this]
  simp only [htp, hcp, Bool.not_true, Bool.false_eq_true, if_false, hcond, if_true]
  cases hps : env.putSucceeds (Scope.guild g) <;> simp [hps]

lemma registerCommandsToGuild_ledger_cases (env : Env) (chk : CommandData → String) (g : String)
    (cmds : List CommandData) (ledger : Ledger) :
    (registerCommandsToGuild env chk g cmds ledger).1 = ledger ∨
    (registerCommandsToGuild env chk g cmds ledger).1 =
      (List.foldl (syncGuildStep env chk g) ⟨ledger, [], false⟩ cmds).ledger := by
  unfold registerCommandsToGuild
  cases htp : env.tokenPresent
  · left; simp [htp]
  · right
    simp only [htp, Bool.not_true, Bool.false_eq_true, if_false]
    split_ifs <;> rfl

lemma registerCommandsToGuild_calls_cases (env : Env) (chk : CommandData → String) (g : String)
    (cmds : List CommandData) (ledger : Ledger) :
    (registerCommandsToGuild env chk g cmds ledger).2 = [] ∨
    (registerCommandsToGuild env chk g cmds ledger).2 = [⟨Scope.guild g, cmds⟩] := by
  unfold registerCommandsToGuild
  cases htp : env.tokenPresent
  · left; simp [htp]
  · simp only [htp, Bool.not_true, Bool.false_eq_true, if_false]
    have hapi : (List.foldl (syncGuildStep env chk g) ⟨ledger, [], false⟩ cmds).api = cmds := by
      rw [syncLoop_api]; simp
    split_ifs <;> simp [hapi]

lemma loadCommands_ledger_eq (env : Env) (checksums : String → Option String)
    (cmds : List CommandData) (ledger : Ledger) :
    (loadCommands env checksums cmds ledger).ledger =
      (List.foldl (loadCommandsStep env checksums) ⟨ledger, false⟩ cmds).ledger := by
  simp only [loadCommands]
  split_ifs <;> rfl

lemma loadCommands_calls_cases (env : Env) (checksums : String → Option String)
    (cmds : List CommandData) (ledger : Ledger) :
    (loadCommands env checksums cmds ledger).calls = [] ∨
    (loadCommands env checksums cmds ledger).calls = [⟨Scope.global, cmds⟩] := by
  simp only [loadCommands]
  split_ifs <;> simp

lemma syncGuildStep_ps_indep (fr tp cp gf : Bool) (dbf : String → Scope → Bool)
    (ps ps' : Scope → Bool) (t : Nat) :
    syncGuildStep ⟨fr, tp, cp, gf, dbf, ps, t⟩ = syncGuildStep ⟨fr, tp, cp, gf, dbf, ps', t⟩ := by
  funext chk g st c
  rfl

lemma loadCommands_ps_indep (fr tp cp gf : Bool) (dbf : String → Scope → Bool)
    (ps ps' : Scope → Bool) (t : Nat) :
    loadCommands ⟨fr, tp, cp, gf, dbf, ps, t⟩ = loadCommands ⟨fr, tp, cp, gf, dbf, ps', t⟩ := by
  funext checksums cmds ledger
  rfl

lemma syncGuildCommands_fr_indep (fr fr' tp cp gf : Bool) (dbf : String → Scope → Bool)
    (ps : Scope → Bool) (t : Nat) :
    syncGuildCommands ⟨fr, tp, cp, gf, dbf, ps, t⟩ = syncGuildCommands ⟨fr', tp, cp, gf, dbf, ps, t⟩ := by
  funext chk g cmds ledger
  rfl

end ShoobBot

namespace ShoobBot

/-! ## Claim theorems -/

/-- Claim C1, counterexample: with one desired command, an empty ledger,
and every registry put failing, `loadCommands` makes a remote call that
fails, yet the ledger after the pass is not the ledger before it — the
row was created before the failing `rest.put`, so write-after-confirm
does not hold. -/
theorem C1_write_after_confirm_counterexample :
    envPutFails.putSucceeds Scope.global = false ∧
    (loadCommands envPutFails (lookupChecksum [("ping", "P1")]) [cmdPing] []).calls ≠ [] ∧
    (loadCommands envPutFails (lookupChecksum [("ping", "P1")]) [cmdPing] []).ledger ≠ ([] : Ledger) := by
  decide

/-- Claim C1, amended: ledger updates are committed before the registry
call, so for every scope the final ledger state is the same whether the
remote put succeeds or fails — a failing call leaves the already-written
rows in place rather than restoring the prior ledger. -/
theorem C1_write_after_confirm_amended :
    ∀ (fr tp cp gf : Bool) (dbf : String → Scope → Bool) (ps ps' : Scope → Bool) (t : Nat)
      (chk : CommandData → String) (checksums : String → Option String) (g : String)
      (cmds : List CommandData) (ledger : Ledger),
      (syncGuildCommands ⟨fr, tp, cp, gf, dbf, ps, t⟩ chk g cmds ledger).ledger =
        (syncGuildCommands ⟨fr, tp, cp, gf, dbf, ps', t⟩ chk g cmds ledger).ledger ∧
      (loadCommands ⟨fr, tp, cp, gf, dbf, ps, t⟩ checksums cmds ledger).ledger =
        (loadCommands ⟨fr, tp, cp, gf, dbf, ps', t⟩ checksums cmds ledger).ledger := by
  intro fr tp cp gf dbf ps ps' t chk checksums g cmds ledger
  refine ⟨?_, by rw [loadCommands_ps_indep fr tp cp gf dbf ps ps' t]⟩
  rw [syncGuildCommands_ledger_eq, syncGuildCommands_ledger_eq,
    syncGuildStep_ps_indep fr tp cp gf dbf ps ps' t]

/-- Claim C2, code evaluation at the failing input: a guild whose ledger
already records the checksum of the single desired command, with the
forced-refresh flag unset, still triggers one whole-scope `rest.put` and
is reported as synced — because the put condition in `syncGuildCommands`
is `shouldPerformAPIPut || commandsToRegisterViaAPI.length > 0` and the
payload list always holds every command. -/
theorem C2_idempotence_code_eval :
    syncGuildCommands envOK chk0 "g1" [cmdPing] ledgerPingG1 =
      ⟨ledgerPingG1, [⟨Scope.guild "g1", [cmdPing]⟩], true⟩ := by
  decide

/-- Claim C3, counterexample: guild `g1`'s registry call is made and
fails, guild `g2`'s succeeds, yet the aggregate tallies report zero
failed and one skipped — the failed registry call is counted as
skipped-as-unchanged, not as failed. -/
theorem C3_fanout_counterexample :
    env3.putSucceeds (Scope.guild "g1") = false ∧
    (initializeGuildCommandSyncer env3 chk0 ["g1", "g2"] [cmdPing] []).calls.contains
      ⟨Scope.guild "g1", [cmdPing]⟩ = true ∧
    (initializeGuildCommandSyncer env3 chk0 ["g1", "g2"] [cmdPing] []).failedCount = 0 ∧
    (initializeGuildCommandSyncer env3 chk0 ["g1", "g2"] [cmdPing] []).skippedCount = 1 := by
  decide

/-- Claim C3, amended: per-guild isolation holds and the tallies are
deterministic, but a guild whose registry call fails is counted in the
skipped tally (the per-guild sync returns `false` on a caught put error);
the failed tally counts only unhandled exceptions, which the sync routine
never raises — so with `g1` failing and `g2` succeeding the aggregate is
one synced, one skipped, zero failed. -/
theorem C3_fanout_amended :
    ∀ (env : Env) (chk : CommandData → String) (cmds : List CommandData)
      (ledger : Ledger) (g1 g2 : String),
      env.tokenPresent = true → env.clientIdPresent = true → env.guildsFetchFails = false →
      cmds ≠ [] →
      env.putSucceeds (Scope.guild g1) = false → env.putSucceeds (Scope.guild g2) = true →
      (initializeGuildCommandSyncer env chk [g1, g2] cmds ledger).syncedCount = 1 ∧
      (initializeGuildCommandSyncer env chk [g1, g2] cmds ledger).skippedCount = 1 ∧
      (initializeGuildCommandSyncer env chk [g1, g2] cmds ledger).failedCount = 0 := by
  intro env chk cmds ledger g1 g2 htp hcp hgf hne hp1 hp2
  have hie : cmds.isEmpty = false := by
    cases cmds with
    | nil => exact absurd rfl hne
    | cons a l => rfl
  unfold initializeGuildCommandSyncer
  simp only [htp, hcp, hgf, hie, Bool.not_true, Bool.false_eq_true, if_false]
  rw [List.foldl_cons, List.foldl_cons, List.foldl_nil]
  have hs1 := syncGuildCommands_synced env chk g1 cmds ledger htp hcp hne
  rw [hp1] at hs1
  simp only [hs1, Bool.false_eq_true, if_false]
  have hs2 := syncGuildCommands_synced env chk g2 cmds
    (syncGuildCommands env chk g1 cmds ledger).ledger htp hcp hne
  rw [hp2] at hs2
  simp only [hs2, if_true]
  exact ⟨trivial, trivial, trivial⟩

/-- Claim C3, witness: the amended tally theorem instantiated at the
two-guild fixture with `g1` failing. -/
theorem C3_fanout_witness :
    (initializeGuildCommandSyncer env3 chk0 ["g1", "g2"] [cmdPing] []).syncedCount = 1 ∧
    (initializeGuildCommandSyncer env3 chk0 ["g1", "g2"] [cmdPing] []).skippedCount = 1 ∧
    (initializeGuildCommandSyncer env3 chk0 ["g1", "g2"] [cmdPing] []).failedCount = 0 :=
  C3_fanout_amended env3 chk0 [cmdPing] [] "g1" "g2" rfl rfl rfl
    (by decide) (by decide) (by decide)

/-- Claim C4, counterexample: with the forced-refresh flag set and a
guild row matching the current checksum, the guild reconciliation leaves
the row untouched (its `lastUpdated` stays 50) — the guild change
detector never consults the flag — while the same flag does refresh the
matching global row (`lastUpdated` becomes 100). -/
theorem C4_change_detection_counterexample :
    envForce.forceRefresh = true ∧
    (syncGuildCommands envForce chk0 "g1" [cmdPing] ledgerPingG1).ledger = ledgerPingG1 ∧
    (loadCommands envForce (lookupChecksum [("ping", "P1")]) [cmdPing]
        [⟨"ping", Scope.global, none, "P1", 50⟩]).ledger =
      [⟨"ping", Scope.global, none, "P1", 100⟩] := by
  decide

/-- Claim C4, amended: the forced-refresh flag acts on the global scope
only. The guild reconciliation is entirely independent of the flag (its
detector is `created || checksum differs`), while for the global scope
load a set flag guarantees the registry call carrying the full desired
set. -/
theorem C4_change_detection_amended :
    (∀ (fr fr' tp cp gf : Bool) (dbf : String → Scope → Bool) (ps : Scope → Bool) (t : Nat)
       (chk : CommandData → String) (g : String) (cmds : List CommandData) (ledger : Ledger),
      syncGuildCommands ⟨fr, tp, cp, gf, dbf, ps, t⟩ chk g cmds ledger =
        syncGuildCommands ⟨fr', tp, cp, gf, dbf, ps, t⟩ chk g cmds ledger) ∧
    (∀ (env : Env) (checksums : String → Option String) (cmds : List CommandData) (ledger : Ledger),
      env.forceRefresh = true → env.tokenPresent = true → env.clientIdPresent = true →
      cmds ≠ [] →
      (loadCommands env checksums cmds ledger).calls = [⟨Scope.global, cmds⟩]) := by
  constructor
  · intro fr fr' tp cp gf dbf ps t chk g cmds ledger
    rw [syncGuildCommands_fr_indep fr fr' tp cp gf dbf ps t]
  · intro env checksums cmds ledger hfr htp hcp hne
    have hnp := globalLoop_needPut_of_force env checksums hne hfr ⟨ledger, false⟩
    simp only [loadCommands, hnp, htp, hcp, if_true, Bool.not_true, Bool.or_self,
      Bool.false_eq_true, if_false]

/-- Claim C4, witness: the amended global-scope statement instantiated at
the forced-refresh fixture. -/
theorem C4_change_detection_witness :
    (loadCommands envForce (lookupChecksum [("ping", "P1")]) [cmdPing] []).calls =
      [⟨Scope.global, [cmdPing]⟩] :=
  C4_change_detection_amended.2 envForce (lookupChecksum [("ping", "P1")]) [cmdPing] []
    rfl rfl rfl (by decide)

/-- Claim C5, counterexample: the ledger lookup for the only command
fails, yet the guild reconciliation completes normally — it issues the
registry call and reports success, leaving the (matching) row alone —
i.e. the error is swallowed and treated as "needs push", not
propagated to the scope level. -/
theorem C5_ledger_failure_counterexample :
    envDbFail.dbFindFails "ping" (Scope.guild "g1") = true ∧
    syncGuildCommands envDbFail chk0 "g1" [cmdPing] ledgerPingG1 =
      ⟨ledgerPingG1, [⟨Scope.guild "g1", [cmdPing]⟩], true⟩ := by
  decide

/-- Claim C5, amended: a failing ledger lookup for any command of the
desired set is caught inside the per-command loop and forces the
scope-level put flag (the command is treated as needing a push), in both
the guild loop and the global loop. -/
theorem C5_ledger_failure_amended :
    ∀ (env : Env) (chk : CommandData → String) (checksums : String → Option String)
      (g : String) (cmds : List CommandData) (c : CommandData) (ledger : Ledger),
      c ∈ cmds →
      (env.dbFindFails c.name (Scope.guild g) = true →
        (List.foldl (syncGuildStep env chk g) ⟨ledger, [], false⟩ cmds).needPut = true) ∧
      (env.dbFindFails c.name Scope.global = true →
        (List.foldl (loadCommandsStep env checksums) ⟨ledger, false⟩ cmds).needPut = true) := by
  intro env chk checksums g cmds c ledger hc
  exact ⟨fun h => syncLoop_needPut_of_mem env chk g hc h _,
    fun h => globalLoop_needPut_of_mem env checksums hc h _⟩

/-- Claim C5, witness: the amended statement instantiated at the
lookup-failure fixture. -/
theorem C5_ledger_failure_witness :
    (List.foldl (syncGuildStep envDbFail chk0 "g1") ⟨ledgerPingG1, [], false⟩ [cmdPing]).needPut = true :=
  (C5_ledger_failure_amended envDbFail chk0 (lookupChecksum [("ping", "P1")]) "g1"
    [cmdPing] cmdPing ledgerPingG1 (by decide)).1 (by decide)

/-- Claim C6, confirmed: every registry call issued by the global load,
the per-guild sync, or the per-guild register carries the entire desired
set in order, never a changed subset — for every environment, desired set
and ledger state. -/
theorem C6_whole_scope_replace :
    ∀ (env : Env) (chk : CommandData → String) (checksums : String → Option String)
      (g : String) (cmds : List CommandData) (ledger : Ledger),
      (∀ call ∈ (loadCommands env checksums cmds ledger).calls, call.body = cmds) ∧
      (∀ call ∈ (syncGuildCommands env chk g cmds ledger).calls, call.body = cmds) ∧
      (∀ call ∈ (registerCommandsToGuild env chk g cmds ledger).2, call.body = cmds) := by
  intro env chk checksums g cmds ledger
  refine ⟨?_, ?_, ?_⟩
  · rcases loadCommands_calls_cases env checksums cmds ledger with h | h <;>
      rw [h] <;> intro call hcall <;> simp at hcall
    rw [hcall]
  · rcases syncGuildCommands_calls_cases env chk g cmds ledger with h | h <;>
      rw [h] <;> intro call hcall <;> simp at hcall
    rw [hcall]
  · rcases registerCommandsToGuild_calls_cases env chk g cmds ledger with h | h <;>
      rw [h] <;> intro call hcall <;> simp at hcall
    rw [hcall]

/-- Claim C6, witness: the guild-scope conjunct applied to the one call
made at a concrete input. -/
theorem C6_whole_scope_replace_witness :
    ((syncGuildCommands envOK chk0 "g1" [cmdPing] []).calls.headI).body = [cmdPing] :=
  (C6_whole_scope_replace envOK chk0 (lookupChecksum [("ping", "P1")]) "g1" [cmdPing] []).2.1
    _ (by decide)

/-- Claim C7, confirmed: after any call of `getAllBotCommandsData`, a
subsequent call — with any discovery input and any checksum function,
i.e. without redoing the discovery work — returns exactly the same list
and leaves the cache state unchanged. -/
theorem C7_loader_caching :
    ∀ (chk chk2 : CommandData → String) (d d2 : List CommandData) (st : LoaderCache),
      getAllBotCommandsData chk2 d2 (getAllBotCommandsData chk d st).2 =
        getAllBotCommandsData chk d st := by
  intro chk chk2 d d2 st
  obtain ⟨ad, cs⟩ := st
  cases ad <;> cases cs <;> rfl

/-- Claim C8, confirmed: no reconciliation operation deletes a ledger
row — every (name, scope) key present before a pass of the global load,
the per-guild sync, or the per-guild register is still present after
it. -/
theorem C8_no_deletion :
    ∀ (env : Env) (chk : CommandData → String) (checksums : String → Option String)
      (g : String) (cmds : List CommandData) (ledger : Ledger) (n : String) (s : Scope),
      (findRecord ledger n s).isSome = true →
      (findRecord (loadCommands env checksums cmds ledger).ledger n s).isSome = true ∧
      (findRecord (syncGuildCommands env chk g cmds ledger).ledger n s).isSome = true ∧
      (findRecord (registerCommandsToGuild env chk g cmds ledger).1 n s).isSome = true := by
  intro env chk checksums g cmds ledger n s h
  refine ⟨?_, ?_, ?_⟩
  · rw [loadCommands_ledger_eq]
    exact globalLoop_ledger_isSome env checksums cmds _ h
  · rcases syncGuildCommands_ledger_cases env chk g cmds ledger with he | he <;> rw [he]
    · exact h
    · exact syncLoop_ledger_isSome env chk g cmds _ h
  · rcases registerCommandsToGuild_ledger_cases env chk g cmds ledger with he | he <;> rw [he]
    · exact h
    · exact syncLoop_ledger_isSome env chk g cmds _ h

/-- Claim C8, witness: the sync conjunct at a concrete input whose ledger
has one row. -/
theorem C8_no_deletion_witness :
    (findRecord (syncGuildCommands envOK chk0 "g1" [cmdPing] ledgerPingG1).ledger
      "ping" (Scope.guild "g1")).isSome = true :=
  (C8_no_deletion envOK chk0 (lookupChecksum [("ping", "P1")]) "g1" [cmdPing] ledgerPingG1
    "ping" (Scope.guild "g1") (by decide)).2.1

/-- Claim C9, confirmed: reconciling one scope mutates only rows of that
scope — the guild sync and register for guild `g` leave every row whose
scope is not `guild g` exactly as it was, and the global load leaves
every non-global row exactly as it was. -/
theorem C9_scope_frame :
    ∀ (env : Env) (chk : CommandData → String) (checksums : String → Option String)
      (g : String) (cmds : List CommandData) (ledger : Ledger) (n : String) (s : Scope),
      (s ≠ Scope.guild g →
        findRecord (syncGuildCommands env chk g cmds ledger).ledger n s = findRecord ledger n s ∧
        findRecord (registerCommandsToGuild env chk g cmds ledger).1 n s = findRecord ledger n s) ∧
      (s ≠ Scope.global →
        findRecord (loadCommands env checksums cmds ledger).ledger n s = findRecord ledger n s) := by
  intro env chk checksums g cmds ledger n s
  constructor
  · intro hs
    constructor
    · rcases syncGuildCommands_ledger_cases env chk g cmds ledger with he | he <;> rw [he]
      exact syncLoop_ledger_frame env chk g hs cmds _
    · rcases registerCommandsToGuild_ledger_cases env chk g cmds ledger with he | he <;> rw [he]
      exact syncLoop_ledger_frame env chk g hs cmds _
  · intro hs
    rw [loadCommands_ledger_eq]
    exact globalLoop_ledger_frame env checksums hs cmds _

/-- Claim C9, witness: syncing guild `g2` leaves guild `g1`'s row
untouched at a concrete input. -/
theorem C9_scope_frame_witness :
    findRecord (syncGuildCommands envOK chk0 "g2" [cmdPing] ledgerPingG1).ledger
      "ping" (Scope.guild "g1") = findRecord ledgerPingG1 "ping" (Scope.guild "g1") :=
  ((C9_scope_frame envOK chk0 (lookupChecksum [("ping", "P1")]) "g2" [cmdPing] ledgerPingG1
    "ping" (Scope.guild "g1")).1 (by decide)).1

/-- Claim C10, confirmed: with an empty desired set the fan-out
initializer returns immediately — no registry call, no ledger change,
all tallies zero — for every environment, guild list and prior ledger. -/
theorem C10_empty_desired_set_noop :
    ∀ (env : Env) (chk : CommandData → String) (guilds : List String) (ledger : Ledger),
      initializeGuildCommandSyncer env chk guilds [] ledger = ⟨ledger, [], 0, 0, 0⟩ := by
  intro env chk guilds ledger
  unfold initializeGuildCommandSyncer
  split_ifs with h1 h2 h3 h4 <;> first | rfl | (exact absurd rfl h3)

end ShoobBot
